import Mathlib

/-!
Verification development for the chess-driller repository.

The repository under scrutiny contains the application event loop
(src/lib.rs, function `run`). The opening-repertoire graph and the
drill-session state machine live in modules (`db`, `game`, `events`) that
are declared but whose sources are not present; those parts are modelled
from the specification, each such definition carrying a doc comment that
says so. Everything about the event loop itself is translated directly
from `run` in src/lib.rs.

The external chess-rules engine (the `chess` crate) and the windowing
system are external collaborators; the event loop is parametrised over an
abstract interface mirroring exactly the operations `run` uses, and a
small concrete table-driven instance is provided for evaluating the
development on concrete inputs.
-/

namespace ChessDriller

/-- Side to move or side being drilled; white is the first mover. -/
inductive Color : Type where
  | white
  | black
  deriving DecidableEq, Repr

/-- Chess piece kinds, as in the external chess crate. -/
inductive Piece : Type where
  | pawn
  | knight
  | bishop
  | rook
  | queen
  | king
  deriving DecidableEq, Repr

/-- Modelled from the spec: `MoveAssessment`, the result of classifying a
player move against the repertoire (the `game` module is not in src/). -/
inductive MoveAssessment : Type where
  | InPrep
  | Deviated
  | EndOfLine
  deriving DecidableEq, Repr

/-- Modelled from the spec: `RepertoireNode`, one position of the
repertoire graph; children are keyed by SAN string with a visit count
(the `db` module is not in src/). -/
inductive RepNode : Type where
  | mk (children : List (String × Nat × RepNode))

/-- The child mapping of a repertoire node. -/
def RepNode.children : RepNode → List (String × Nat × RepNode)
  | .mk cs => cs

/-- Look up a SAN key in a child list, returning the first matching child. -/
def findChild : List (String × Nat × RepNode) → String → Option RepNode
  | [], _ => none
  | (san, _, c) :: rest, m => if san = m then some c else findChild rest m

/-- Modelled from the spec: `find_path` descends from a node following each
move in order and fails the moment a move is absent. -/
def findPath : RepNode → List String → Option RepNode
  | n, [] => some n
  | n, m :: ms =>
    match findChild n.children m with
    | some c => findPath c ms
    | none => none

/-- Pick the child with the largest visit count, the earliest one on ties.
This is the deterministic instance of the weighted selection policy the
spec leaves open. -/
def pickBest : List (String × Nat × RepNode) → Option (String × Nat × RepNode)
  | [] => none
  | c :: rest =>
    match pickBest rest with
    | none => some c
    | some b => if b.2.1 > c.2.1 then some b else some c

/-- Modelled from the spec: `DrillSession` (called `GameState` at its use
sites in src/lib.rs): current node pointer, drilled color, ply count about
to be played, recorded move history, and the finished flag. -/
structure GameState : Type where
  node : RepNode
  color : Color
  ply : Nat
  history : List String
  finished : Bool

/-- Modelled from the spec: `is_player_turn` is a pure function of the ply
count about to be played and the drilled color; even ply is the first
mover. -/
def GameState.is_player_turn (s : GameState) : Bool :=
  match s.color with
  | .white => s.ply % 2 == 0
  | .black => s.ply % 2 == 1

/-- Modelled from the spec: `still_running` is true while the session has
not been marked finished. -/
def GameState.still_running (s : GameState) : Bool :=
  !s.finished

/-- Modelled from the spec: `apply_move` looks the SAN up among the current
node children; present advances the pointer and records the ply (InPrep),
absent with children is Deviated without advancing, no children at all is
EndOfLine and marks the session finished. -/
def GameState.apply_move (s : GameState) (san : String) : MoveAssessment × GameState :=
  match findChild s.node.children san with
  | some c =>
    (.InPrep, { s with node := c, ply := s.ply + 1, history := s.history ++ [san] })
  | none =>
    if s.node.children.isEmpty then (.EndOfLine, { s with finished := true })
    else (.Deviated, s)

/-- Modelled from the spec: `make_move` selects one edge of the current node
(weighted by visit count, deterministic here), returns nothing when the
node has no children, and advances the pointer exactly as `apply_move`
would for the chosen edge. -/
def GameState.make_move (s : GameState) : Option (String × GameState) :=
  match pickBest s.node.children with
  | none => none
  | some (san, _, c) =>
    some (san, { s with node := c, ply := s.ply + 1, history := s.history ++ [san] })

/-- Modelled from the spec: the opening database owning the repertoire
graph root (loaded by `OpeningDatabase::load_default` in src/lib.rs). -/
structure OpeningDatabase : Type where
  root : RepNode

/-- Modelled from the spec: `start_drill` resolves the opening moves
against the graph from the root via `find_path`; on success the session
node is the resolved node, the history is the prefix, and the ply count is
its length. -/
def OpeningDatabase.start_drill (db : OpeningDatabase) (c : Color)
    (moves : List String) : Option GameState :=
  match findPath db.root moves with
  | some n =>
    some { node := n, color := c, ply := moves.length, history := moves, finished := false }
  | none => none

/-- A candidate move as built by `ChessMove::new(source, dest, promotion)`
in src/lib.rs. -/
structure ChessMove (Sq : Type) : Type where
  source : Sq
  dest : Sq
  promotion : Option Piece
  deriving DecidableEq, Repr

/-- Interface of the external chess-rules collaborator, exactly the
operations `run` in src/lib.rs uses: the initial board, the legality
check, pure move application, piece lookup, rank of a square, SAN encoding
(`game::get_san`) and SAN resolution (`ChessMove::from_san`, a fallible
conversion). -/
structure ChessApi (B Sq : Type) : Type where
  initial : B
  legal : B → ChessMove Sq → Bool
  make_move_new : B → ChessMove Sq → B
  piece_on : B → Sq → Option Piece
  rank_index : Sq → Nat
  get_san : ChessMove Sq → B → Option String
  from_san : B → String → Option (ChessMove Sq)

/-- The events the loop in `run` dispatches on. -/
inductive EventKind : Type where
  | Close
  | FlipBoard
  | Reset
  | MouseClick (x y : Int)
  | StartPractising
  | MouseDragBegin (x y : Int)
  | MouseDragMove (x y : Int)
  | MouseDragEnd (x y : Int)
  | Other
  deriving DecidableEq, Repr

/-- The mutable locals of `run` in src/lib.rs that the event handlers
touch: the live board, the selection, the recorded SAN history, the
optional drill session, the drag context and the pending promotion square
(the last is never written by any handler), plus the loop flag. -/
structure AppState (B Sq : Type) : Type where
  board : B
  selected_square : Option Sq
  san_moves : List String
  game_state : Option GameState
  drag_context : Option (Int × Int)
  pending_promotion_square : Option Sq
  running : Bool

/-- Outcome of handling one event: either the next state, or a process
abort as caused by `Option::unwrap` / `Result::unwrap` panicking. -/
inductive StepResult (σ : Type) : Type where
  | ok (s : σ)
  | crashed (msg : String)

/-- The Reset arm of `run` (src/lib.rs lines 89 to 93): clear the SAN
history, drop the session, restore the default board. -/
def handle_reset {B Sq : Type} (api : ChessApi B Sq) (s : AppState B Sq) : AppState B Sq :=
  { s with san_moves := [], game_state := none, board := api.initial }

/-- The MouseClick arm of `run` (src/lib.rs lines 94 to 128), translated
clause by clause. Note that the board is advanced (line 101) before
`apply_move` is consulted (line 103), and that the bot reply resolves its
SAN with `ChessMove::from_san(..).unwrap()` (line 109), which panics when
the resolution fails. -/
def handle_click {B Sq : Type} (api : ChessApi B Sq)
    (get_square : Int → Int → Option Sq) (s : AppState B Sq) (x y : Int) :
    StepResult (AppState B Sq) :=
  match get_square x y with
  | none => .ok s
  | some square =>
    match s.selected_square with
    | none =>
      if (api.piece_on s.board square).isSome then
        .ok { s with selected_square := some square }
      else
        .ok s
    | some sel =>
      if api.legal s.board ⟨sel, square, none⟩ then
        match api.get_san ⟨sel, square, none⟩ s.board with
        | none => .ok { s with selected_square := none }
        | some san =>
          match s.game_state with
          | none =>
            .ok { s with board := api.make_move_new s.board ⟨sel, square, none⟩,
                         san_moves := s.san_moves ++ [san],
                         selected_square := none }
          | some st =>
            if (st.apply_move san).1 = .InPrep then
              match (st.apply_move san).2.make_move with
              | none =>
                .ok { s with board := api.make_move_new s.board ⟨sel, square, none⟩,
                             game_state := some (st.apply_move san).2,
                             selected_square := none }
              | some (text, st2) =>
                match api.from_san (api.make_move_new s.board ⟨sel, square, none⟩) text with
                | none => .crashed "called Result::unwrap on an Err value"
                | some mv =>
                  .ok { s with board := api.make_move_new
                                 (api.make_move_new s.board ⟨sel, square, none⟩) mv,
                               game_state := some st2,
                               selected_square := none }
            else
              .ok { s with board := api.make_move_new s.board ⟨sel, square, none⟩,
                           game_state := some (st.apply_move san).2,
                           selected_square := none }
      else
        .ok { s with selected_square := some square }

/-- The tail of the StartPractising arm (src/lib.rs lines 137 to 151):
start a drill from the recorded SAN history and, when it is not the player
turn, play the bot move, resolving its SAN with
`ChessMove::from_san(..).unwrap()` (line 148). -/
def start_from_history {B Sq : Type} (api : ChessApi B Sq) (player : Color)
    (db : OpeningDatabase) (s : AppState B Sq) : StepResult (AppState B Sq) :=
  match db.start_drill player s.san_moves with
  | none => .ok { s with game_state := none }
  | some st =>
    if st.is_player_turn then
      .ok { s with game_state := some st }
    else
      match st.make_move with
      | none => .ok { s with game_state := some st }
      | some (text, st2) =>
        match api.from_san s.board text with
        | none => .crashed "called Result::unwrap on an Err value"
        | some mv =>
          .ok { s with board := api.make_move_new s.board mv,
                       game_state := some st2 }

/-- The StartPractising arm of `run` (src/lib.rs lines 130 to 152): a
still-running session makes the event a no-op (`continue`); a finished
session resets the board to the default position (without clearing the
SAN history) before starting anew. -/
def handle_start {B Sq : Type} (api : ChessApi B Sq) (player : Color)
    (db : OpeningDatabase) (s : AppState B Sq) : StepResult (AppState B Sq) :=
  match s.game_state with
  | some st =>
    if st.still_running then
      .ok s
    else
      start_from_history api player db { s with board := api.initial }
  | none => start_from_history api player db s

/-- The MouseDragBegin arm of `run` (src/lib.rs lines 153 to 163). -/
def handle_drag_begin {B Sq : Type} (api : ChessApi B Sq)
    (get_square : Int → Int → Option Sq) (s : AppState B Sq) (x y : Int) :
    AppState B Sq :=
  match get_square x y with
  | none => { s with drag_context := some (x, y) }
  | some square =>
    if (api.piece_on s.board square).isSome then
      { s with drag_context := some (x, y), selected_square := some square }
    else
      { s with drag_context := some (x, y) }

/-- The promotion choice of the MouseDragEnd arm (src/lib.rs lines 173 to
179): a pawn dragged to rank index 0 or 7 promotes to a queen, anything
else carries no promotion. -/
def promotion_for {B Sq : Type} (api : ChessApi B Sq) (board : B) (src dst : Sq) :
    Option Piece :=
  match api.piece_on board src with
  | some .pawn =>
    if api.rank_index dst == 0 || api.rank_index dst == 7 then some .queen else none
  | _ => none

/-- The MouseDragEnd arm of `run` (src/lib.rs lines 170 to 191): build the
candidate with the computed promotion, apply it if legal, clear the
selection either way, and always clear the drag context. -/
def handle_drag_end {B Sq : Type} (api : ChessApi B Sq)
    (get_square : Int → Int → Option Sq) (s : AppState B Sq) (x y : Int) :
    AppState B Sq :=
  match get_square x y with
  | none => { s with drag_context := none }
  | some dst =>
    match s.selected_square with
    | none => { s with drag_context := none }
    | some src =>
      if api.legal s.board ⟨src, dst, promotion_for api s.board src dst⟩ then
        { s with board := api.make_move_new s.board ⟨src, dst, promotion_for api s.board src dst⟩,
                 selected_square := none,
                 drag_context := none }
      else
        { s with selected_square := none, drag_context := none }

/-- One iteration of the event match in `run` (src/lib.rs lines 80 to
195). FlipBoard only affects the excluded rendering subsystem, so it
leaves the modelled state unchanged; the wildcard arm does nothing. -/
def step {B Sq : Type} (api : ChessApi B Sq) (get_square : Int → Int → Option Sq)
    (player : Color) (db : OpeningDatabase) (s : AppState B Sq) :
    EventKind → StepResult (AppState B Sq)
  | .Close => .ok { s with running := false }
  | .FlipBoard => .ok s
  | .Reset => .ok (handle_reset api s)
  | .MouseClick x y => handle_click api get_square s x y
  | .StartPractising => handle_start api player db s
  | .MouseDragBegin x y => .ok (handle_drag_begin api get_square s x y)
  | .MouseDragMove x y => .ok { s with drag_context := some (x, y) }
  | .MouseDragEnd x y => .ok (handle_drag_end api get_square s x y)
  | .Other => .ok s

/-- Process a batch of pending events in order, stopping at a panic, as
the for loop in `run` does. -/
def run_events {B Sq : Type} (api : ChessApi B Sq) (get_square : Int → Int → Option Sq)
    (player : Color) (db : OpeningDatabase) (s : AppState B Sq) :
    List EventKind → StepResult (AppState B Sq)
  | [] => .ok s
  | e :: es =>
    match step api get_square player db s e with
    | .ok s1 => run_events api get_square player db s1 es
    | .crashed msg => .crashed msg

/-- The initial state of the locals of `run` (src/lib.rs lines 58 to 70). -/
def init_state {B Sq : Type} (api : ChessApi B Sq) : AppState B Sq :=
  { board := api.initial, selected_square := none, san_moves := [],
    game_state := none, drag_context := none,
    pending_promotion_square := none, running := true }

/-! ### A concrete instance of the external collaborators

Boards are represented by the list of SAN moves played from the initial
position (so a board value literally is the replay of a SAN history), and
squares by their 0 to 63 index (rank index times 8 plus file index). The
tables below record real chess facts for the handful of positions the
concrete scenarios visit: 12 is e2, 28 is e4, 11 is d2, 27 is d4, 52 is
e7, 36 is e5, 6 is g1, 21 is f3, 51 is d7, 59 is d8. The board tagged
"promo-demo" is a stylised position with a white pawn on d7, used only to
exercise the promotion path. -/

/-- Piece lookup table for the demo positions. -/
def demo_piece_on (b : List String) (sq : Nat) : Option Piece :=
  match b, sq with
  | [], 12 => some .pawn
  | [], 11 => some .pawn
  | ["e4", "e5"], 6 => some .knight
  | ["promo-demo"], 51 => some .pawn
  | _, _ => none

/-- Legality table for the demo positions. -/
def demo_legal (b : List String) (m : ChessMove Nat) : Bool :=
  match b, m with
  | [], ⟨12, 28, none⟩ => true
  | [], ⟨11, 27, none⟩ => true
  | ["e4", "e5"], ⟨6, 21, none⟩ => true
  | ["promo-demo"], ⟨51, 59, some .queen⟩ => true
  | _, _ => false

/-- SAN encoding table for the demo positions. -/
def demo_get_san (m : ChessMove Nat) (b : List String) : Option String :=
  match m, b with
  | ⟨12, 28, none⟩, [] => some "e4"
  | ⟨11, 27, none⟩, [] => some "d4"
  | ⟨6, 21, none⟩, ["e4", "e5"] => some "Nf3"
  | ⟨51, 59, some .queen⟩, ["promo-demo"] => some "d8=Q"
  | _, _ => none

/-- Move application for the demo boards: append the SAN of the move. -/
def demo_make_move (b : List String) (m : ChessMove Nat) : List String :=
  match b, m with
  | [], ⟨12, 28, none⟩ => ["e4"]
  | [], ⟨11, 27, none⟩ => ["d4"]
  | ["e4"], ⟨52, 36, none⟩ => ["e4", "e5"]
  | ["e4", "e5"], ⟨6, 21, none⟩ => ["e4", "e5", "Nf3"]
  | ["promo-demo"], ⟨51, 59, some .queen⟩ => ["promo-demo", "d8=Q"]
  | b, _ => b ++ ["unknown"]

/-- SAN resolution table: e5 resolves as the pawn move e7 to e5 after
1. e4, and resolves against no other demo board; in particular "e5" is not
a legal white first move, so it does not resolve on the initial board. -/
def demo_from_san (b : List String) (san : String) : Option (ChessMove Nat) :=
  match b, san with
  | ["e4"], "e5" => some ⟨52, 36, none⟩
  | _, _ => none

/-- The concrete chess collaborator built from the tables. -/
def demo_api : ChessApi (List String) Nat :=
  { initial := []
    legal := demo_legal
    make_move_new := demo_make_move
    piece_on := demo_piece_on
    rank_index := fun sq => sq / 8
    get_san := demo_get_san
    from_san := demo_from_san }

/-- A window square lookup: the x coordinate is the square index. -/
def demo_get_square (x _y : Int) : Option Nat :=
  if 0 ≤ x ∧ x < 64 then some x.toNat else none

/-- The repertoire graph built from the single game 1. e4 e5: a root with
one child edge e4, whose node has one child edge e5 ending in a leaf. -/
def demo_leaf : RepNode := .mk []

/-- Node after 1. e4 in the demo graph. -/
def demo_after_e4 : RepNode := .mk [("e5", 1, demo_leaf)]

/-- Root of the demo graph. -/
def demo_root : RepNode := .mk [("e4", 1, demo_after_e4)]

/-- The demo opening database. -/
def demo_db : OpeningDatabase := ⟨demo_root⟩

/-- Event batch driving the loop into the unreachable-notation panic:
click e2 then e4 in free play (recording "e4"), start a drill (the bot
answers e5), click g1 then f3 (EndOfLine, the session finishes, the board
keeps the move, the SAN history still holds only "e4"), then start
practising again: the board is reset to the initial position while the
drill restarts from history "e4", so the bot reply "e5" cannot be
resolved and the unwrap panics. -/
def crash_events : List EventKind :=
  [.MouseClick 12 0, .MouseClick 28 0, .StartPractising,
   .MouseClick 6 0, .MouseClick 21 0, .StartPractising]

/-- Event batch exhibiting the board-versus-history divergence with a still
running session: start a drill at the root (the player moves first), then
click d2 and d4. The move deviates from the only known edge e4, the
session pointer and history stay at the root, yet the board has already
been advanced to hold the d4 move. -/
def divergence_events : List EventKind :=
  [.StartPractising, .MouseClick 11 0, .MouseClick 27 0]

/-- A drill session sitting at the demo root, about to receive ply 0. -/
def root_session : GameState :=
  { node := demo_root, color := .white, ply := 0, history := [], finished := false }

/-- An application state in a fresh drill at the root, with d2 selected. -/
def deviating_state : AppState (List String) Nat :=
  { board := [], selected_square := some 11, san_moves := [],
    game_state := some root_session, drag_context := none,
    pending_promotion_square := none, running := true }

/-- The state reached after `divergence_events`: the session is still the
root session (active, history empty), but the board holds the deviating
move d4. -/
def diverged_state : AppState (List String) Nat :=
  { board := ["d4"], selected_square := none, san_moves := [],
    game_state := some root_session, drag_context := none,
    pending_promotion_square := none, running := true }

/-- A drill session sitting one ply into the demo graph, after 1. e4. -/
def e4_session : GameState :=
  { node := demo_after_e4, color := .white, ply := 1, history := ["e4"], finished := false }

/-- A free-play state with the e2 pawn selected, used for illegal-input
witnesses. -/
def misclick_state : AppState (List String) Nat :=
  { board := [], selected_square := some 12, san_moves := [],
    game_state := none, drag_context := none,
    pending_promotion_square := none, running := true }

/-- The stylised promotion state: pawn on d7 selected, ready to drag to
d8. -/
def promo_state : AppState (List String) Nat :=
  { board := ["promo-demo"], selected_square := some 51, san_moves := [],
    game_state := none, drag_context := none,
    pending_promotion_square := none, running := true }

/-! ### Helper lemmas -/

/-- The deterministic edge selection returns nothing exactly on a leaf. -/
theorem pickBest_eq_none_iff {cs : List (String × Nat × RepNode)} :
    pickBest cs = none ↔ cs = [] := by
  constructor
  · intro hh
    cases cs with
    | nil => rfl
    | cons hd rest =>
      simp only [pickBest] at hh
      split at hh
      · exact Option.noConfusion hh
      · split at hh <;> exact Option.noConfusion hh
  · intro hh
    subst hh
    rfl

/-- The selected edge is one of the children. -/
theorem pickBest_mem {cs : List (String × Nat × RepNode)} {e : String × Nat × RepNode}
    (h : pickBest cs = some e) : e ∈ cs := by
  induction cs with
  | nil => exact Option.noConfusion h
  | cons hd rest ih =>
    simp only [pickBest] at h
    split at h
    · cases h
      exact List.mem_cons_self _ _
    · rename_i b hb
      split at h
      · cases h
        exact List.mem_cons_of_mem _ (ih hb)
      · cases h
        exact List.mem_cons_self _ _

/-- With unique keys, looking up the key of a member child finds that
child. -/
theorem findChild_of_mem_nodup {cs : List (String × Nat × RepNode)}
    {san : String} {n : Nat} {c : RepNode}
    (hn : (cs.map fun e => e.1).Nodup) (hm : (san, n, c) ∈ cs) :
    findChild cs san = some c := by
  induction cs with
  | nil => cases hm
  | cons hd rest ih =>
    obtain ⟨s0, n0, c0⟩ := hd
    simp only [List.map_cons, List.nodup_cons] at hn
    rcases List.mem_cons.mp hm with heq | hmem
    · cases heq
      simp [findChild]
    · have hk : san ∈ rest.map fun e => e.1 :=
        List.mem_map.mpr ⟨(san, n, c), hmem, rfl⟩
      have hne : ¬(s0 = san) := fun h => hn.1 (h ▸ hk)
      simp only [findChild, if_neg hne]
      exact ih hn.2 hmem

/-! ### Claim theorems -/

/-- C8: processing a Reset event discards the current drill session,
clears the recorded SAN move history, and restores the board to the
initial chess position, regardless of the prior state. -/
theorem C8_reset_restores_initial {B Sq : Type} (api : ChessApi B Sq)
    (gsq : Int → Int → Option Sq) (p : Color) (db : OpeningDatabase)
    (s : AppState B Sq) :
    step api gsq p db s .Reset =
      .ok { s with san_moves := [], game_state := none, board := api.initial } := rfl

/-- C9: if a drill session exists and still_running returns true,
processing a StartPractising event is a no-op: the whole application
state, session, board and SAN history included, is unchanged. -/
theorem C9_start_practising_noop_when_running {B Sq : Type} (api : ChessApi B Sq)
    (gsq : Int → Int → Option Sq) (p : Color) (db : OpeningDatabase)
    (s : AppState B Sq) (st : GameState)
    (h1 : s.game_state = some st) (h2 : st.still_running = true) :
    step api gsq p db s .StartPractising = .ok s := by
  simp only [step, handle_start, h1, h2, if_true]

/-- Witness for C9 at a concrete running session. -/
theorem C9_witness :
    step demo_api demo_get_square .white demo_db
        { init_state demo_api with game_state := some root_session }
        .StartPractising =
      .ok { init_state demo_api with game_state := some root_session } :=
  C9_start_practising_noop_when_running demo_api demo_get_square .white demo_db
    { init_state demo_api with game_state := some root_session } root_session rfl rfl

/-- C5: start_drill returns nothing exactly when the opening-move prefix
is not a path present in the graph; with the empty prefix it succeeds (in
particular whenever the graph is non-empty); and the caller treats a
failed start_drill as ordinary control flow, staying in free play with the
state unchanged. -/
theorem C5_start_drill_failure_semantics :
    (∀ (db : OpeningDatabase) (c : Color) (moves : List String),
        db.start_drill c moves = none ↔ findPath db.root moves = none) ∧
    (∀ (db : OpeningDatabase) (c : Color),
        db.root.children ≠ [] → (db.start_drill c []).isSome = true) ∧
    (∀ {B Sq : Type} (api : ChessApi B Sq) (gsq : Int → Int → Option Sq)
        (p : Color) (db : OpeningDatabase) (s : AppState B Sq),
        s.game_state = none → db.start_drill p s.san_moves = none →
        step api gsq p db s .StartPractising = .ok s) := by
  refine ⟨?_, ?_, ?_⟩
  · intro db c moves
    unfold OpeningDatabase.start_drill
    cases h : findPath db.root moves <;> simp
  · intro db c _h
    unfold OpeningDatabase.start_drill
    simp [findPath]
  · intro B Sq api gsq p db s h1 h2
    obtain ⟨b, ss, sm, gst, dc, pp, r⟩ := s
    simp only at h1 h2
    subst h1
    simp only [step, handle_start, start_from_history, h2]

/-- Witness for C5 at the demo database: the empty prefix succeeds on the
non-empty demo graph, and a prefix absent from the graph leaves the caller
in free play. -/
theorem C5_witness :
    (demo_db.start_drill .white [] = none ↔ findPath demo_db.root [] = none) ∧
    (demo_db.start_drill .white []).isSome = true ∧
    step demo_api demo_get_square .white demo_db
        { init_state demo_api with san_moves := ["zz"] } .StartPractising =
      .ok { init_state demo_api with san_moves := ["zz"] } :=
  ⟨C5_start_drill_failure_semantics.1 demo_db .white [],
   C5_start_drill_failure_semantics.2.1 demo_db .white
     (by simp [demo_db, demo_root, RepNode.children]),
   C5_start_drill_failure_semantics.2.2 demo_api demo_get_square .white demo_db
     { init_state demo_api with san_moves := ["zz"] } rfl rfl⟩

/-- C6: is_player_turn is a pure function of the ply count about to be
played and the drilled color; it alternates strictly with ply count, is
true at ply 0 for a white (first mover) drill and true at ply 1 for a
black (second mover) drill. -/
theorem C6_is_player_turn_parity :
    (∀ s t : GameState, s.ply = t.ply → s.color = t.color →
        s.is_player_turn = t.is_player_turn) ∧
    (∀ s : GameState,
        GameState.is_player_turn { s with ply := s.ply + 1 } = !s.is_player_turn) ∧
    (∀ s : GameState, s.ply = 0 → s.color = .white → s.is_player_turn = true) ∧
    (∀ s : GameState, s.ply = 1 → s.color = .black → s.is_player_turn = true) := by
  refine ⟨?_, ?_, ?_, ?_⟩
  · intro s t h1 h2
    unfold GameState.is_player_turn
    rw [h1, h2]
  · intro s
    unfold GameState.is_player_turn
    rcases Nat.mod_two_eq_zero_or_one s.ply with h | h <;>
      cases hc : s.color <;> simp [hc, Nat.add_mod, h]
  · intro s h1 h2
    simp [GameState.is_player_turn, h1, h2]
  · intro s h1 h2
    simp [GameState.is_player_turn, h1, h2]

/-- Witness for C6 at concrete sessions: a white drill at ply 0 and a
black drill at ply 1 are both the player turn. -/
theorem C6_witness :
    root_session.is_player_turn = root_session.is_player_turn ∧
    root_session.is_player_turn = true ∧
    GameState.is_player_turn { root_session with color := .black, ply := 1 } = true :=
  ⟨C6_is_player_turn_parity.1 root_session root_session rfl rfl,
   C6_is_player_turn_parity.2.2.1 root_session rfl rfl,
   C6_is_player_turn_parity.2.2.2 { root_session with color := .black, ply := 1 } rfl rfl⟩

/-- C7: make_move returns nothing exactly when the current node has no
children; otherwise (for a node with unique SAN keys, the data-model
invariant) it returns the SAN of one of the current node edges and
advances the session exactly as apply_move would for that edge. -/
theorem C7_make_move_matches_apply_move (s : GameState) :
    (s.make_move = none ↔ s.node.children = []) ∧
    ((s.node.children.map fun e => e.1).Nodup →
      ∀ (san : String) (s2 : GameState), s.make_move = some (san, s2) →
        san ∈ (s.node.children.map fun e => e.1) ∧
          s.apply_move san = (.InPrep, s2)) := by
  constructor
  · unfold GameState.make_move
    cases h : pickBest s.node.children with
    | none => simp [pickBest_eq_none_iff.mp h]
    | some e =>
      obtain ⟨san, n, c⟩ := e
      constructor
      · intro hh
        exact Option.noConfusion hh
      · intro hh
        rw [pickBest_eq_none_iff.mpr hh] at h
        exact Option.noConfusion h
  · intro hnd san s2 hsome
    unfold GameState.make_move at hsome
    cases h : pickBest s.node.children with
    | none =>
      rw [h] at hsome
      exact Option.noConfusion hsome
    | some e =>
      obtain ⟨san0, n0, c0⟩ := e
      rw [h] at hsome
      simp only [Option.some.injEq, Prod.mk.injEq] at hsome
      obtain ⟨hsan, hs2⟩ := hsome
      subst hsan
      have hm := pickBest_mem h
      refine ⟨List.mem_map.mpr ⟨(san0, n0, c0), hm, rfl⟩, ?_⟩
      unfold GameState.apply_move
      rw [findChild_of_mem_nodup hnd hm, ← hs2]

/-- Witness for C7 at the node after 1. e4: make_move picks the only edge
e5 and advances exactly as apply_move does. -/
theorem C7_witness :
    (e4_session.make_move = none ↔ e4_session.node.children = []) ∧
    ("e5" ∈ (e4_session.node.children.map fun e => e.1) ∧
      e4_session.apply_move "e5" =
        (.InPrep, { e4_session with
                      node := demo_leaf, ply := 2, history := ["e4", "e5"] })) :=
  ⟨(C7_make_move_matches_apply_move e4_session).1,
   (C7_make_move_matches_apply_move e4_session).2 (by decide) "e5"
     { e4_session with node := demo_leaf, ply := 2, history := ["e4", "e5"] } rfl⟩

/-- C3 as stated is false on src/lib.rs: the MouseClick arm advances the
board (line 101) before consulting apply_move (line 103), so a Deviated
move does advance the board. At the concrete deviating input d4 against a
root whose only edge is e4, apply_move returns Deviated and leaves the
session unchanged, yet the step leaves the board advanced to d4. -/
theorem C3_counterexample :
    root_session.apply_move "d4" = (.Deviated, root_session) ∧
    step demo_api demo_get_square .white demo_db deviating_state (.MouseClick 27 0) =
      .ok { deviating_state with board := ["d4"], selected_square := none } ∧
    deviating_state.board ≠ ["d4"] :=
  ⟨rfl, rfl, by decide⟩

/-- C3 amended: for every move on which apply_move returns Deviated the
session (node pointer included) is left unchanged, but the surrounding
application has already advanced the board before invoking apply_move, so
the board is advanced for that move. -/
theorem C3_deviated_keeps_pointer_board_advances :
    (∀ (sess : GameState) (san : String),
        (sess.apply_move san).1 = .Deviated → (sess.apply_move san).2 = sess) ∧
    (∀ {B Sq : Type} (api : ChessApi B Sq) (gsq : Int → Int → Option Sq)
        (p : Color) (db : OpeningDatabase) (s : AppState B Sq) (x y : Int)
        (sq sel : Sq) (san : String) (st : GameState),
        gsq x y = some sq → s.selected_square = some sel →
        api.legal s.board ⟨sel, sq, none⟩ = true →
        api.get_san ⟨sel, sq, none⟩ s.board = some san →
        s.game_state = some st → (st.apply_move san).1 = .Deviated →
        step api gsq p db s (.MouseClick x y) =
          .ok { s with board := api.make_move_new s.board ⟨sel, sq, none⟩,
                       game_state := some (st.apply_move san).2,
                       selected_square := none }) := by
  constructor
  · intro sess san h
    unfold GameState.apply_move at h ⊢
    cases hc : findChild sess.node.children san
    · by_cases he : sess.node.children.isEmpty
      · simp [hc, he] at h
      · simp [hc, he]
    · simp [hc] at h
  · intro B Sq api gsq p db s x y sq sel san st h1 h2 h3 h4 h5 h6
    simp only [step, handle_click, h1, h2, h3, h4, h5, h6, if_true]
    simp

/-- Witness for the amended C3 at the concrete deviating input. -/
theorem C3_witness :
    (root_session.apply_move "d4").2 = root_session ∧
    step demo_api demo_get_square .white demo_db deviating_state (.MouseClick 27 0) =
      .ok { deviating_state with
              board := demo_api.make_move_new deviating_state.board ⟨11, 27, none⟩,
              game_state := some (root_session.apply_move "d4").2,
              selected_square := none } :=
  ⟨C3_deviated_keeps_pointer_board_advances.1 root_session "d4" rfl,
   C3_deviated_keeps_pointer_board_advances.2 demo_api demo_get_square .white demo_db
     deviating_state 27 0 27 11 "d4" root_session rfl rfl rfl rfl rfl rfl⟩

/-- C4: a raw user input move (click or drag) that is illegal on the
current board is rejected silently: the board, the SAN history and the
drill session are all unchanged (only the selection is updated), so
apply_move is never reached; in the translated handlers apply_move occurs
only under a passed legality check. -/
theorem C4_illegal_input_rejected_silently :
    (∀ {B Sq : Type} (api : ChessApi B Sq) (gsq : Int → Int → Option Sq)
        (p : Color) (db : OpeningDatabase) (s : AppState B Sq) (x y : Int)
        (sq sel : Sq),
        gsq x y = some sq → s.selected_square = some sel →
        api.legal s.board ⟨sel, sq, none⟩ = false →
        step api gsq p db s (.MouseClick x y) =
          .ok { s with selected_square := some sq }) ∧
    (∀ {B Sq : Type} (api : ChessApi B Sq) (gsq : Int → Int → Option Sq)
        (p : Color) (db : OpeningDatabase) (s : AppState B Sq) (x y : Int)
        (dst src : Sq),
        gsq x y = some dst → s.selected_square = some src →
        api.legal s.board ⟨src, dst, promotion_for api s.board src dst⟩ = false →
        step api gsq p db s (.MouseDragEnd x y) =
          .ok { s with selected_square := none, drag_context := none }) := by
  constructor
  · intro B Sq api gsq p db s x y sq sel h1 h2 h3
    simp only [step, handle_click, h1, h2, h3, Bool.false_eq_true, if_false]
  · intro B Sq api gsq p db s x y dst src h1 h2 h3
    simp only [step, handle_drag_end, h1, h2, h3, Bool.false_eq_true, if_false]

/-- Witness for C4: an illegal click from e2 and an illegal drag from e2
are both rejected with the board, history and session untouched. -/
theorem C4_witness :
    step demo_api demo_get_square .white demo_db misclick_state (.MouseClick 50 0) =
      .ok { misclick_state with selected_square := some 50 } ∧
    step demo_api demo_get_square .white demo_db misclick_state (.MouseDragEnd 50 0) =
      .ok { misclick_state with selected_square := none, drag_context := none } :=
  ⟨C4_illegal_input_rejected_silently.1 demo_api demo_get_square .white demo_db
     misclick_state 50 0 50 12 rfl rfl rfl,
   C4_illegal_input_rejected_silently.2 demo_api demo_get_square .white demo_db
     misclick_state 50 0 50 12 rfl rfl rfl⟩

/-- C10: the candidate move of a drag end carries a queen promotion
exactly when the dragged piece is a pawn and the destination rank index is
0 or 7; every other drag carries no promotion (a queen is the only
promotion ever constructed, so the player is given no choice), and a legal
drag applies precisely that candidate to the board. -/
theorem C10_drag_end_promotes_queen_only :
    (∀ {B Sq : Type} (api : ChessApi B Sq) (b : B) (src dst : Sq),
        promotion_for api b src dst = some .queen ↔
          (api.piece_on b src = some .pawn ∧
            (api.rank_index dst = 0 ∨ api.rank_index dst = 7))) ∧
    (∀ {B Sq : Type} (api : ChessApi B Sq) (b : B) (src dst : Sq),
        promotion_for api b src dst = none ∨
          promotion_for api b src dst = some .queen) ∧
    (∀ {B Sq : Type} (api : ChessApi B Sq) (gsq : Int → Int → Option Sq)
        (p : Color) (db : OpeningDatabase) (s : AppState B Sq) (x y : Int)
        (dst src : Sq),
        gsq x y = some dst → s.selected_square = some src →
        api.legal s.board ⟨src, dst, promotion_for api s.board src dst⟩ = true →
        step api gsq p db s (.MouseDragEnd x y) =
          .ok { s with
                  board := api.make_move_new s.board
                    ⟨src, dst, promotion_for api s.board src dst⟩,
                  selected_square := none, drag_context := none }) := by
  refine ⟨?_, ?_, ?_⟩
  · intro B Sq api b src dst
    unfold promotion_for
    cases hp : api.piece_on b src with
    | none => simp
    | some pc =>
      cases pc <;> simp
      by_cases h0 : api.rank_index dst = 0 <;> by_cases h7 : api.rank_index dst = 7 <;>
        simp [h0, h7]
  · intro B Sq api b src dst
    unfold promotion_for
    cases hp : api.piece_on b src with
    | none => simp
    | some pc =>
      cases pc <;> simp
      by_cases h0 : api.rank_index dst = 0 <;> by_cases h7 : api.rank_index dst = 7 <;>
        simp [h0, h7]
  · intro B Sq api gsq p db s x y dst src h1 h2 h3
    simp only [step, handle_drag_end, h1, h2, h3, if_true]

/-- Witness for C10: dragging the d7 pawn to d8 builds the queen-promotion
candidate and a legal such drag applies it to the board. -/
theorem C10_witness :
    (promotion_for demo_api ["promo-demo"] 51 59 = some .queen ↔
      (demo_api.piece_on ["promo-demo"] 51 = some .pawn ∧
        (demo_api.rank_index 59 = 0 ∨ demo_api.rank_index 59 = 7))) ∧
    step demo_api demo_get_square .white demo_db promo_state (.MouseDragEnd 59 0) =
      .ok { promo_state with
              board := demo_api.make_move_new promo_state.board
                ⟨51, 59, promotion_for demo_api promo_state.board 51 59⟩,
              selected_square := none, drag_context := none } :=
  ⟨C10_drag_end_promotes_queen_only.1 demo_api ["promo-demo"] 51 59,
   C10_drag_end_promotes_queen_only.2.2 demo_api demo_get_square .white demo_db
     promo_state 59 0 59 51 rfl rfl rfl⟩

/-- C1 is contradicted by src/lib.rs: when the bot-selected SAN cannot be
resolved against the live board, `run` calls
`ChessMove::from_san(..).unwrap()` (lines 109 and 148), which panics and
aborts the process instead of surfacing a logged internal error. The
concrete run drives the loop there: free-play e4 is recorded, a drill is
started (the bot answers e5), the player walks the line to its end, and a
second StartPractising resets the board to the initial position while
restarting the drill from the stale history, so the bot reply e5 cannot be
resolved and the second unwrap panics. -/
theorem C1_unresolvable_notation_panics :
    run_events demo_api demo_get_square .white demo_db (init_state demo_api)
        crash_events =
      .crashed "called Result::unwrap on an Err value" := rfl

/-- C2 is contradicted by src/lib.rs: after starting a drill at the root
and clicking the deviating move d4, the session is still active with an
empty recorded history, yet the board holds the d4 move (in this model a
board value is literally the position replayed from the initial position,
so replaying the empty history gives the empty board, not the reached
board). The MouseClick arm advances the board before apply_move decides,
and the StartPractising arm after a finished session resets the board
while restarting from the stale SAN history, which is what makes the run
of C1 panic. -/
theorem C2_board_history_invariant_fails :
    run_events demo_api demo_get_square .white demo_db (init_state demo_api)
        divergence_events = .ok diverged_state ∧
    diverged_state.game_state = some root_session ∧
    root_session.still_running = true ∧
    root_session.history = [] ∧
    diverged_state.board = ["d4"] ∧
    diverged_state.board ≠ root_session.history :=
  ⟨rfl, rfl, rfl, rfl, rfl, by decide⟩

end ChessDriller
